import Mathlib

/-!
Verification of the testflight-pm feedback ingestion and issue-filing pipeline.

Shallow embedding of:
 * the TestFlight API client (`src/unnamed/part_000`): retry/backoff request
   executor `makeApiRequest`, retryability classification `isRetryableError`,
   rate-limit gate `waitForRateLimit`, client-side date filtering and sorting
   in `getEnhancedRecentFeedback`, screenshot normalization and the
   screenshot download helper `downloadSingleScreenshotImage`;
 * the Linear client (`src/src/api/linear-client.ts`): the duplicate detector
   `findDuplicateIssue`, the orchestrator `createIssueFromTestFlight`, label
   resolution `resolveLabelNamesToIds`, and `uploadScreenshots`.

External services (fetch, the Linear SDK, clocks and randomness) are modelled
as oracles passed in explicitly; machine time is a natural-number count of
milliseconds; raw image bytes are `List Nat`.
-/

namespace TFPM

/-- `startsWithChars p s` is true when character list `p` is an initial
segment of `s` (helper for substring containment). -/
def startsWithChars : List Char → List Char → Bool
  | [], _ => true
  | _ :: _, [] => false
  | a :: ps, b :: ss => a == b && startsWithChars ps ss

/-- `hasSublist p s` is true when `p` occurs contiguously inside `s`. -/
def hasSublist (p : List Char) : List Char → Bool
  | [] => startsWithChars p []
  | b :: rest => startsWithChars p (b :: rest) || hasSublist p rest

/-- JavaScript `String.prototype.includes`: substring containment. -/
def containsSubstr (s pat : String) : Bool :=
  hasSublist pat.data s.data

/-- First-occurrence deduplication worker; `seen` collects the values already
emitted. -/
def dedupFirstGo : List String → List String → List String
  | [], _ => []
  | x :: xs, seen =>
    if x ∈ seen then dedupFirstGo xs seen else x :: dedupFirstGo xs (x :: seen)

/-- JavaScript `[...new Set(xs)]`: keeps the first occurrence of each value,
in order. -/
def dedupFirst (l : List String) : List String :=
  dedupFirstGo l []

/-- JavaScript `String.prototype.toLowerCase`, modelled per character (the
label names and file extensions involved are ASCII). -/
def toLowerStr (s : String) : String :=
  ⟨s.data.map Char.toLower⟩

/-! ## Rate-limited request executor (`makeApiRequest`, part_000 lines 723-848) -/

/-- `RateLimitInfo` from part_000 lines 32-36: the snapshot parsed from the
`X-RateLimit-*` response headers.  `reset` is an absolute time. -/
structure RateLimitInfo where
  remaining : Nat
  reset : Nat
  limit : Nat
deriving DecidableEq

/-- Outcome of one dispatched attempt, as seen by the `try` block of
`makeApiRequest`: a 2xx with parsed data, a non-2xx response carrying the
status, status text and the parsed error body (`none` when the body is not
JSON), or a thrown exception (network error / timeout / auth failure).
`headers` is the rate-limit header triple when all three are present. -/
inductive AttemptOutcome (T : Type) where
  | success (data : T) (headers : Option RateLimitInfo)
  | httpError (status : Nat) (statusText : String)
      (body : Option (List (String × String))) (headers : Option RateLimitInfo)
  | exn (msg : String)

/-- The mutable context threaded through the retry loop of `makeApiRequest`:
the clock, the `rateLimitInfo` field, `lastError`/`lastStatusCode`, and
observable traces (attempt count, backoff delays slept, and each dispatch
with the snapshot that was current when the dispatch was gated). -/
structure RunState where
  t : Nat
  rl : Option RateLimitInfo
  lastErr : Option String
  lastStatus : Option Nat
  attemptsMade : Nat
  delays : List Nat
  dispatches : List (Nat × Option RateLimitInfo)
deriving DecidableEq

/-- Result of a full `makeApiRequest` run: the returned value or thrown
error, together with the final context. -/
structure RunResult (T : Type) where
  result : Except String T
  final : RunState

/-- `waitForRateLimit` (part_000 lines 955-972) as a delay computation: if
the last snapshot has `remaining <= 5` and the reset time is still ahead,
sleep until it elapses. -/
def waitForRateLimitDelay (rl : Option RateLimitInfo) (now : Nat) : Nat :=
  match rl with
  | none => 0
  | some info =>
    if info.remaining ≤ 5 then
      let waitTime := info.reset - now
      if 0 < waitTime then waitTime else 0
    else 0

/-- `updateRateLimitInfo` (part_000 lines 938-950): replace the snapshot only
when all three headers were present (`headers = some _`). -/
def updRL (old : Option RateLimitInfo) (headers : Option RateLimitInfo) :
    Option RateLimitInfo :=
  match headers with
  | some h => some h
  | none => old

/-- The message of the error thrown for a non-2xx response (part_000 lines
768-794): `API Error: title: detail; ...` when the body parsed, otherwise
`HTTP status: statusText`. -/
def httpErrMsg (status : Nat) (statusText : String)
    (body : Option (List (String × String))) : String :=
  match body with
  | some entries =>
    "API Error: " ++ String.intercalate "; " (entries.map (fun e => e.1 ++ ": " ++ e.2))
  | none => "HTTP " ++ toString status ++ ": " ++ statusText

/-- The first abort test of the catch block (part_000 lines 804-813): message
mentions authentication, or the last status code is 401/403. -/
def authAbortCheck (msg : String) (status : Option Nat) : Bool :=
  containsSubstr msg "authentication" || containsSubstr msg "unauthorized" ||
    status == some 401 || status == some 403

/-- The second abort test of the catch block (part_000 lines 815-819): last
status code in 400-499 and not 429. -/
def clientAbortCheck (status : Option Nat) : Bool :=
  match status with
  | some s => decide (400 ≤ s) && decide (s < 500) && !(s == 429)
  | none => false

/-- `lastError?.message` interpolation: JavaScript prints `undefined` for a
null error. -/
def optMsg : Option String → String
  | none => "undefined"
  | some s => s

/-- ` (HTTP status)` suffix of the final error (part_000 line 839). -/
def statusSuffix : Option Nat → String
  | none => ""
  | some s => " (HTTP " ++ toString s ++ ")"

/-- The single wrapped error built after retry exhaustion (part_000 lines
838-840). -/
def finalMsg (retries : Nat) (lastErr : Option String) (lastStatus : Option Nat) :
    String :=
  "Request failed after " ++ toString (retries + 1) ++ " attempts: " ++
    optMsg lastErr ++ statusSuffix lastStatus

/-- Result of processing one attempt: either the loop finishes (return or
rethrow) or the catch block decides the error may be retried. -/
inductive AttemptResult (T : Type) where
  | finished (res : Except String T) (st : RunState)
  | wantRetry (st : RunState)

/-- One iteration of the `makeApiRequest` loop body (part_000 lines 737-819):
rate-limit gate, dispatch, header bookkeeping, then the catch-block abort
tests.  The backoff/last-attempt decisions live in `marGo`. -/
def runAttempt {T : Type} (oc : Nat → AttemptOutcome T) (a : Nat) (st : RunState) :
    AttemptResult T :=
  let td := st.t + waitForRateLimitDelay st.rl st.t
  let st1 : RunState :=
    { st with t := td, dispatches := st.dispatches ++ [(td, st.rl)],
              attemptsMade := st.attemptsMade + 1 }
  match oc a with
  | AttemptOutcome.success d headers =>
    AttemptResult.finished (Except.ok d) { st1 with rl := updRL st1.rl headers }
  | AttemptOutcome.httpError s txt body headers =>
    let m := httpErrMsg s txt body
    let st2 : RunState :=
      { st1 with rl := updRL st1.rl headers, lastStatus := some s, lastErr := some m }
    if authAbortCheck m st2.lastStatus || clientAbortCheck st2.lastStatus then
      AttemptResult.finished (Except.error m) st2
    else AttemptResult.wantRetry st2
  | AttemptOutcome.exn m =>
    let st2 : RunState := { st1 with lastErr := some m }
    if authAbortCheck m st2.lastStatus || clientAbortCheck st2.lastStatus then
      AttemptResult.finished (Except.error m) st2
    else AttemptResult.wantRetry st2

/-- The retry loop of `makeApiRequest` (part_000 lines 737-847): `fuel` is
the number of attempts still allowed (`retries + 1` at the start); on a
retryable failure at the last attempt the loop breaks and the wrapped final
error is thrown; otherwise the exponential backoff delay
`retryDelay * 2 ^ attempt + jitter` is slept and the loop continues. -/
def marGo {T : Type} (retries retryDelay : Nat) (jit : Nat → Nat)
    (oc : Nat → AttemptOutcome T) : Nat → Nat → RunState → RunResult T
  | 0, _, st => ⟨Except.error (finalMsg retries st.lastErr st.lastStatus), st⟩
  | fuel + 1, a, st =>
    match runAttempt oc a st with
    | AttemptResult.finished r st2 => ⟨r, st2⟩
    | AttemptResult.wantRetry st2 =>
      if fuel = 0 then
        ⟨Except.error (finalMsg retries st2.lastErr st2.lastStatus), st2⟩
      else
        let d := retryDelay * 2 ^ a + jit a
        marGo retries retryDelay jit oc fuel (a + 1)
          { st2 with t := st2.t + d, delays := st2.delays ++ [d] }

/-- Initial loop context: the clock and the client's current snapshot. -/
def initState (t0 : Nat) (rl0 : Option RateLimitInfo) : RunState :=
  ⟨t0, rl0, none, none, 0, [], []⟩

/-- `makeApiRequest` (part_000 lines 723-848).  `jit` is the sampled jitter
(the floored `Math.random() * 0.1 * baseDelay` term) for each attempt. -/
def makeApiRequest {T : Type} (retries retryDelay : Nat) (jit : Nat → Nat)
    (oc : Nat → AttemptOutcome T) (t0 : Nat) (rl0 : Option RateLimitInfo) :
    RunResult T :=
  marGo retries retryDelay jit oc (retries + 1) 0 (initState t0 rl0)

/-- `DEFAULT_HTTP_CONFIG.retries`.  Modelled from the spec: the constant
lives in `src/config/index`, which is not part of the provided sources; the
spec fixes "up to N attempts (configurable, default 3 for most calls)" and
`makeApiRequest` performs `retries + 1` attempts, so the default retry count
is 2. -/
def defaultRetriesModelled : Nat := 2

/-- `isRetryableError` (part_000 lines 853-882), the classification of
non-2xx responses. -/
def isRetryableError (statusCode : Nat) (errorMessage : String) : Bool :=
  if statusCode == 429 then true
  else if 500 ≤ statusCode then true
  else if containsSubstr errorMessage "timeout" || containsSubstr errorMessage "network" then
    true
  else if containsSubstr errorMessage "temporarily unavailable" ||
      containsSubstr errorMessage "service unavailable" then true
  else if 400 ≤ statusCode ∧ statusCode < 500 then false
  else false

/-- Modelled from the spec: "classify retryable = {429, >=500, message
containing timeout/network/temporarily unavailable/service unavailable}" —
the classification the spec claims `makeApiRequest` retries exactly. -/
def retryableSpecClass (statusCode : Nat) (errorMessage : String) : Bool :=
  statusCode == 429 || decide (500 ≤ statusCode) ||
    containsSubstr errorMessage "timeout" || containsSubstr errorMessage "network" ||
    containsSubstr errorMessage "temporarily unavailable" ||
    containsSubstr errorMessage "service unavailable"

/-! ## Feedback fetcher: date filtering and ordering (part_000 lines 493-512, 105-124, 683-709) -/

/-- The date-bearing attributes of a crash or screenshot submission.
`createdDate` is the real API field, `submittedAt` the legacy one; `none`
covers an absent (or falsy) field. -/
structure SubmissionAttrs where
  createdDate : Option Nat
  submittedAt : Option Nat
deriving DecidableEq

/-- A raw crash or screenshot submission record from a list endpoint. -/
structure Submission where
  id : String
  attributes : SubmissionAttrs
deriving DecidableEq

/-- The date used by the client-side filter (part_000 lines 506, 118):
`new Date(attrs.createdDate || attrs.submittedAt || 0)`. -/
def submissionFilterDate (a : SubmissionAttrs) : Nat :=
  a.createdDate.getD (a.submittedAt.getD 0)

/-- The date stored in the normalized record (part_000 lines 1173, 1223):
`attrs.createdDate || attrs.submittedAt || new Date().toISOString()`. -/
def submissionProcessDate (now : Nat) (a : SubmissionAttrs) : Nat :=
  a.createdDate.getD (a.submittedAt.getD now)

/-- The client-side date filter shared by
`getAppCrashSubmissionsWithDateFilter` (lines 505-508) and
`getAppScreenshotSubmissionsWithDateFilter` (lines 117-120):
keep records with `createdDate >= since`. -/
def filterByDate (since : Nat) (l : List Submission) : List Submission :=
  l.filter (fun s => decide (since ≤ submissionFilterDate s.attributes))

/-- The slice of `ProcessedFeedbackData` the ordering claims are about. -/
structure ProcessedFeedback where
  id : String
  isCrash : Bool
  submittedAt : Nat
deriving DecidableEq

/-- `processCrashReport` (part_000 lines 1167-1211), restricted to identity
and the submission date. -/
def processCrashRecord (now : Nat) (s : Submission) : ProcessedFeedback :=
  ⟨s.id, true, submissionProcessDate now s.attributes⟩

/-- `processScreenshotFeedback` (part_000 lines 1217-1259), restricted to
identity and the submission date. -/
def processScreenshotRecord (now : Nat) (s : Submission) : ProcessedFeedback :=
  ⟨s.id, false, submissionProcessDate now s.attributes⟩

/-- Descending order on `submittedAt`, the comparator of
`processedData.sort((a, b) => b.submittedAt.getTime() - a.submittedAt.getTime())`
(part_000 line 706). -/
def feedbackDescOrder (a b : ProcessedFeedback) : Prop :=
  b.submittedAt ≤ a.submittedAt

instance : DecidableRel feedbackDescOrder := fun a b =>
  Nat.decLe b.submittedAt a.submittedAt

instance : IsTotal ProcessedFeedback feedbackDescOrder :=
  ⟨fun a b => Nat.le_total b.submittedAt a.submittedAt⟩

instance : IsTrans ProcessedFeedback feedbackDescOrder :=
  ⟨fun _ _ _ hab hbc => Nat.le_trans hbc hab⟩

/-- `getEnhancedRecentFeedback` (part_000 lines 683-709), restricted to the
date/order pipeline: filter each list client-side, normalize (enrichment
does not touch `submittedAt`), concatenate crashes then screenshots, and
sort newest-first.  The JavaScript comparator sort is modelled by insertion
sort with the same order. -/
def getEnhancedRecentFeedback (now since : Nat)
    (crashes screenshots : List Submission) : List ProcessedFeedback :=
  List.insertionSort feedbackDescOrder
    ((filterByDate since crashes).map (processCrashRecord now) ++
      (filterByDate since screenshots).map (processScreenshotRecord now))

/-! ## Screenshot normalization, download and upload -/

/-- A raw screenshot entry from the API (`attrs.screenshots[i]` /
detailed-response `screenshots[i]`): every field may be missing. -/
structure RawImage where
  url : String
  fileName : Option String
  fileSize : Option Nat
  expiresAt : Option Nat
deriving DecidableEq

/-- A normalized image reference (`ImageRef` of the spec).  `cachedData` is
the opportunistically downloaded bytes. -/
structure ImageRef where
  url : String
  fileName : String
  fileSize : Nat
  expiresAt : Nat
  cachedData : Option (List Nat) := none
deriving DecidableEq

/-- The image mapping shared by `processScreenshotFeedback` (part_000 lines
1250-1255) and the detailed-response path in `processScreenshotFeedbackData`
(lines 1063-1069): fallback filename `screenshot_i.png`, size 0, and
`expiresAt = Date.now() + 3600000` (one hour) when the field is missing. -/
def processScreenshotImage (now idx : Nat) (img : RawImage) : ImageRef :=
  { url := img.url,
    fileName := img.fileName.getD ("screenshot_" ++ toString idx ++ ".png"),
    fileSize := img.fileSize.getD 0,
    expiresAt := img.expiresAt.getD (now + 3600000),
    cachedData := none }

/-- Outcome of one `fetch` of an image URL. -/
inductive FetchOutcome where
  | ok (bytes : List Nat)
  | httpFail (status : Nat)
  | exn (msg : String)
deriving DecidableEq

/-- Environment for `downloadSingleScreenshotImage`: the clock at entry and
the per-attempt network responses. -/
structure DownloadEnv where
  now : Nat
  fetch : Nat → FetchOutcome

/-- Retry loop of `downloadSingleScreenshotImage` (part_000 lines 289-340):
up to 3 attempts, retrying 5xx responses and thrown errors only while
attempts remain.  Returns the bytes and the number of fetches issued. -/
def dssGo (env : DownloadEnv) : Nat → Nat → Nat → Option (List Nat) × Nat
  | 0, _, calls => (none, calls)
  | fuel + 1, attempt, calls =>
    match env.fetch attempt with
    | FetchOutcome.ok b => (some b, calls + 1)
    | FetchOutcome.httpFail s =>
      if 500 ≤ s ∧ 0 < fuel then dssGo env fuel (attempt + 1) (calls + 1)
      else (none, calls + 1)
    | FetchOutcome.exn _ =>
      if 0 < fuel then dssGo env fuel (attempt + 1) (calls + 1)
      else (none, calls + 1)

/-- `downloadSingleScreenshotImage` (part_000 lines 277-343): an image whose
URL already expired (`expiresAt <= now`) is refused before any fetch. -/
def downloadSingleScreenshotImage (env : DownloadEnv) (img : ImageRef) :
    Option (List Nat) × Nat :=
  if img.expiresAt ≤ env.now then (none, 0)
  else dssGo env 3 1 0

/-- A Linear file-upload target (`uploadPayload.uploadFile`). -/
structure UploadTarget where
  uploadUrl : String
  assetUrl : String
deriving DecidableEq

/-- Environment for `uploadScreenshots`: the clock, the Apple-URL download
oracle (`none` covers a non-2xx response or a thrown error), the Linear
`fileUpload` RPC and the raw PUT. -/
structure UploadEnv where
  now : Nat
  download : String → Option (List Nat)
  fileUpload : String → String → Nat → Option UploadTarget
  putOk : String → Bool

/-- The per-image data acquisition step of `uploadScreenshots` (linear-client
lines 1360-1389): cached bytes take unconditional precedence; otherwise the
expiry gate, then a download from the Apple URL.  The second component
records the URLs actually fetched. -/
def acquireImageData (env : UploadEnv) (img : ImageRef) :
    Option (List Nat) × List String :=
  match img.cachedData with
  | some d => (some d, [])
  | none =>
    if img.expiresAt ≤ env.now then (none, [])
    else
      match env.download img.url with
      | some b => (some b, [img.url])
      | none => (none, [img.url])

/-- `getContentTypeFromFileName` (linear-client lines 1447-1463). -/
def getContentTypeFromFileName (fileName : String) : String :=
  if fileName = "" then "image/png"
  else
    match ((toLowerStr fileName).splitOn ".").getLast? with
    | some "png" => "image/png"
    | some "jpg" => "image/jpeg"
    | some "jpeg" => "image/jpeg"
    | some "heic" => "image/heic"
    | _ => "image/png"

/-- Accumulated results of `uploadScreenshots`, plus the trace of Apple-URL
downloads performed. -/
structure UploadResults where
  uploaded : Nat
  failed : Nat
  urls : List (String × String)
  fetched : List String
deriving DecidableEq

/-- One iteration of the `uploadScreenshots` loop (linear-client lines
1349-1439): acquire bytes (cache / expiry gate / download), then request an
upload URL and PUT the bytes; every failure increments `failed`. -/
def uploadOneScreenshot (env : UploadEnv) (idx : Nat) (img : ImageRef)
    (acc : UploadResults) : UploadResults :=
  let fileName := if img.fileName = "" then "screenshot_" ++ toString idx ++ ".png"
    else img.fileName
  match acquireImageData env img with
  | (none, tr) => { acc with failed := acc.failed + 1, fetched := acc.fetched ++ tr }
  | (some bytes, tr) =>
    let acc1 : UploadResults := { acc with fetched := acc.fetched ++ tr }
    match env.fileUpload (getContentTypeFromFileName fileName) fileName bytes.length with
    | none => { acc1 with failed := acc1.failed + 1 }
    | some tgt =>
      if env.putOk tgt.uploadUrl then
        { acc1 with uploaded := acc1.uploaded + 1,
                    urls := acc1.urls ++ [(fileName, tgt.assetUrl)] }
      else { acc1 with failed := acc1.failed + 1 }

/-- Index-carrying fold for `uploadScreenshots`. -/
def uploadGo (env : UploadEnv) : Nat → List ImageRef → UploadResults → UploadResults
  | _, [], acc => acc
  | i, img :: rest, acc => uploadGo env (i + 1) rest (uploadOneScreenshot env i img acc)

/-- `uploadScreenshots` (linear-client lines 1332-1442). -/
def uploadScreenshots (env : UploadEnv) (images : List ImageRef) : UploadResults :=
  uploadGo env 0 images ⟨0, 0, [], []⟩

/-! ## Duplicate detector (`findDuplicateIssue`, linear-client lines 320-412) -/

/-- The slice of a Linear issue the duplicate search inspects. -/
structure Issue where
  id : String
  identifier : String
  description : Option String
  teamId : String
deriving DecidableEq

/-- `description?.includes(feedback.id)`. -/
def descContains (i : Issue) (fid : String) : Bool :=
  match i.description with
  | some d => containsSubstr d fid
  | none => false

/-- The scan of strategy 1 and strategy 3 (lines 345-353, 384-390): first
issue in the response whose description contains the feedback id. -/
def firstDescMatch (fid : String) (issues : List Issue) : Option Issue :=
  issues.find? (fun i => descContains i fid)

/-- The scan of strategy 2 (lines 361-372): skip issues outside the
configured team, then the same description check. -/
def tier2DescMatch (teamId fid : String) (issues : List Issue) : Option Issue :=
  issues.find? (fun i => i.teamId == teamId && descContains i fid)

/-- Environment for the duplicate detector: per-attempt results of the three
search calls (`sdk.issues` with the structured filter, `sdk.searchIssues`,
and the recent-issues query); `Except.error` is a thrown SDK error. -/
structure DupEnv where
  teamId : String
  tier1 : Nat → Except String (List Issue)
  tier2 : Nat → Except String (List Issue)
  tier3 : Nat → Except String (List Issue)

/-- One attempt of `findDuplicateIssue` (lines 327-394): the three
strategies in order; any thrown error aborts the attempt; first confirmed
description hit wins; a clean miss of all three is a final `none`. -/
def dupAttempt (env : DupEnv) (fid : String) (a : Nat) :
    Except String (Option Issue) :=
  match env.tier1 a with
  | Except.error e => Except.error e
  | Except.ok l1 =>
    match firstDescMatch fid l1 with
    | some i => Except.ok (some i)
    | none =>
      match env.tier2 a with
      | Except.error e => Except.error e
      | Except.ok l2 =>
        match tier2DescMatch env.teamId fid l2 with
        | some i => Except.ok (some i)
        | none =>
          match env.tier3 a with
          | Except.error e => Except.error e
          | Except.ok l3 =>
            match firstDescMatch fid l3 with
            | some i => Except.ok (some i)
            | none => Except.ok none

/-- The retry loop of `findDuplicateIssue` (lines 326-411): up to 3
attempts; a successful attempt (hit or clean miss) is final; when every
attempt throws, the detector itself throws. -/
def findDupGo (env : DupEnv) (fid : String) :
    Nat → Nat → Option String → Except String (Option Issue)
  | 0, _, lastErr =>
    Except.error ("Failed to check for duplicate Linear issues: " ++ optMsg lastErr ++
      ". Cannot safely proceed without duplicate check.")
  | fuel + 1, a, _ =>
    match dupAttempt env fid a with
    | Except.ok r => Except.ok r
    | Except.error e => findDupGo env fid fuel (a + 1) (some e)

/-- `findDuplicateIssue` (linear-client lines 320-412), with
`maxRetries = 3`. -/
def findDuplicateIssue (env : DupEnv) (fid : String) :
    Except String (Option Issue) :=
  findDupGo env fid 3 1 none

/-! ## Label resolution (`resolveLabelNamesToIds`, linear-client lines 525-668) -/

/-- A label returned by `sdk.issueLabels`.  `children` is the number of
child labels; `none` models the children lookup throwing (the code then
treats the label as assignable). -/
structure LabelNode where
  name : String
  id : String
  children : Option Nat
deriving DecidableEq

/-- Result of `sdk.createIssueLabel` for a name: created with an id, a
non-success payload, a thrown duplicate-name error, or another thrown
error. -/
inductive CreateLabelOutcome where
  | created (id : String)
  | failed
  | duplicateExists
  | otherThrow
deriving DecidableEq

/-- The world one retry attempt of label resolution sees: the labels
returned by `sdk.issueLabels({first: 250})`, the per-name creation outcome,
and the labels returned by the re-fetch after a duplicate-name error. -/
structure LabelAttemptEnv where
  existingLabels : List LabelNode
  create : String → CreateLabelOutcome
  refetchLabels : List LabelNode

/-- Per-attempt oracle: `Except.error` models `sdk.issueLabels` throwing. -/
structure LabelEnv where
  attempt : Nat → Except String LabelAttemptEnv

/-- The hardcoded group-label skip list (linear-client line 546). -/
def knownGroupLabels : List String :=
  ["feedback", "bug", "feature", "improvement", "platform"]

/-- Worker building `labelMap` (newest entry first, so lookups see the last
`Map.set`) and the `parentLabels` set from the fetched labels
(linear-client lines 542-573). -/
def buildLabelMapsGo : List LabelNode → List (String × String) → List String →
    List (String × String) × List String
  | [], m, p => (m, p)
  | node :: rest, m, p =>
    let lower := toLowerStr node.name
    if knownGroupLabels.contains lower then buildLabelMapsGo rest m (lower :: p)
    else
      match node.children with
      | none => buildLabelMapsGo rest ((lower, node.id) :: m) p
      | some n =>
        if 0 < n then buildLabelMapsGo rest m (lower :: p)
        else buildLabelMapsGo rest ((lower, node.id) :: m) p

/-- `labelMap` and `parentLabels` of one attempt. -/
def buildLabelMaps (nodes : List LabelNode) : List (String × String) × List String :=
  buildLabelMapsGo nodes [] []

/-- `labelMap.get`, with the most recent `set` winning. -/
def mapGet (m : List (String × String)) (k : String) : Option String :=
  (m.find? (fun e => e.1 == k)).map (fun e => e.2)

/-- The per-name resolution loop (linear-client lines 580-633): skip parent
labels, use the map, otherwise create; `alreadyResolved` (here: membership
in `acc`) guards every push; on a duplicate-name error the re-fetched list
is scanned for a matching not-yet-resolved label. -/
def resolveLoop (aenv : LabelAttemptEnv) (labelMap : List (String × String))
    (parents : List String) : List String → List String → List String
  | [], acc => acc
  | n :: ns, acc =>
    let norm := toLowerStr n
    if parents.contains norm then resolveLoop aenv labelMap parents ns acc
    else
      match mapGet labelMap norm with
      | some lid =>
        if lid ∈ acc then resolveLoop aenv labelMap parents ns acc
        else resolveLoop aenv labelMap parents ns (acc ++ [lid])
      | none =>
        match aenv.create n with
        | CreateLabelOutcome.created nid =>
          if nid ∈ acc then resolveLoop aenv labelMap parents ns acc
          else resolveLoop aenv labelMap parents ns (acc ++ [nid])
        | CreateLabelOutcome.failed => resolveLoop aenv labelMap parents ns acc
        | CreateLabelOutcome.duplicateExists =>
          match aenv.refetchLabels.find?
              (fun l => toLowerStr l.name == norm && !(acc.contains l.id)) with
          | some l => resolveLoop aenv labelMap parents ns (acc ++ [l.id])
          | none => resolveLoop aenv labelMap parents ns acc
        | CreateLabelOutcome.otherThrow => resolveLoop aenv labelMap parents ns acc

/-- One successful attempt of `resolveLabelNamesToIds`. -/
def runLabelAttempt (aenv : LabelAttemptEnv) (names : List String) : List String :=
  let mp := buildLabelMaps aenv.existingLabels
  resolveLoop aenv mp.1 mp.2 names []

/-- The retry loop of `resolveLabelNamesToIds` (lines 533-667): up to 3
attempts over the label fetch; on exhaustion the issue is filed without
labels (`[]`). -/
def resolveLabelsGo (env : LabelEnv) (names : List String) : Nat → Nat → List String
  | 0, _ => []
  | fuel + 1, a =>
    match env.attempt a with
    | Except.ok aenv => runLabelAttempt aenv names
    | Except.error _ => resolveLabelsGo env names fuel (a + 1)

/-- `resolveLabelNamesToIds` (linear-client lines 525-668). -/
def resolveLabelNamesToIds (env : LabelEnv) (names : List String) : List String :=
  if names.isEmpty then [] else resolveLabelsGo env names 3 1

/-- The label-resolution step of `createIssueFromTestFlight` (lines 159-163):
case-insensitive dedup of the input names, resolution, then a dedup of the
resulting ids. -/
def labelResolutionInCreate (env : LabelEnv) (labelNames : List String) : List String :=
  dedupFirst (resolveLabelNamesToIds env (dedupFirst (labelNames.map toLowerStr)))

/-! ## Issue filing orchestrator (`createIssueFromTestFlight`, linear-client lines 61-203) -/

/-- Calls issued to the tracker that mutate issues (the searches of the
duplicate detector and the asset uploads are traced separately). -/
inductive TrackerCall where
  | createComment (issueId : String)
  | createIssue
deriving DecidableEq

/-- Terminal states of one filing run. -/
inductive FileOutcome where
  | created (issue : Issue)
  | commented (issue : Issue)
  | failed (msg : String)
deriving DecidableEq

/-- Environment of the orchestrator: the duplicate detector's search oracles,
the config flag (the constructor at line 48 always sets it to `true`), the
comment RPC, the label-resolution oracles and the `createIssue` RPC (which
receives the resolved label ids). -/
structure OrchestratorEnv where
  dup : DupEnv
  enableDuplicateDetection : Bool
  comment : String → Except String Unit
  labels : LabelEnv
  createIssue : List String → Except String Issue

/-- The create branch of `createIssueFromTestFlight` (lines 148-196): label
resolution, then the `createIssue` call; a reported failure or missing
payload becomes a wrapped error.  Screenshot upload and description
templating only affect the issue body and are out of this slice. -/
def createPath (env : OrchestratorEnv) (labelNames : List String) :
    FileOutcome × List TrackerCall :=
  let labelIds := labelResolutionInCreate env.labels labelNames
  match env.createIssue labelIds with
  | Except.ok i => (FileOutcome.created i, [TrackerCall.createIssue])
  | Except.error e =>
    (FileOutcome.failed ("Failed to create Linear issue from TestFlight feedback: Error: " ++ e),
      [TrackerCall.createIssue])

/-- `createIssueFromTestFlight` (linear-client lines 61-203): duplicate gate
first — a detector error is fatal and reaches the caller with no create
call; a found duplicate gets a comment and is returned; only a confirmed
miss proceeds to the create branch. -/
def createIssueFromTestFlight (env : OrchestratorEnv) (fid : String)
    (labelNames : List String) : FileOutcome × List TrackerCall :=
  if env.enableDuplicateDetection then
    match findDuplicateIssue env.dup fid with
    | Except.error e =>
      (FileOutcome.failed
        ("Failed to create Linear issue from TestFlight feedback: Error: Cannot create Linear issue: duplicate detection failed. " ++ e),
        [])
    | Except.ok (some dup) =>
      match env.comment dup.id with
      | Except.ok _ => (FileOutcome.commented dup, [TrackerCall.createComment dup.id])
      | Except.error e =>
        (FileOutcome.failed ("Failed to create Linear issue from TestFlight feedback: Error: " ++ e),
          [TrackerCall.createComment dup.id])
    | Except.ok none => createPath env labelNames
  else createPath env labelNames

/-! ## Supporting lemmas: screenshot pipeline -/

lemma mem_acquire_fetched (env : UploadEnv) (img : ImageRef) (u : String)
    (h : u ∈ (acquireImageData env img).2) : img.cachedData = none ∧ img.url = u := by
  unfold acquireImageData at h
  cases hc : img.cachedData with
  | some d => rw [hc] at h; simp at h
  | none =>
    rw [hc] at h
    by_cases he : img.expiresAt ≤ env.now
    · simp [he] at h
    · cases hd : env.download img.url <;> simp [he, hd] at h <;> exact ⟨rfl, h.symm⟩

lemma uploadOne_fetched (env : UploadEnv) (i : Nat) (img : ImageRef)
    (acc : UploadResults) :
    (uploadOneScreenshot env i img acc).fetched =
      acc.fetched ++ (acquireImageData env img).2 := by
  unfold uploadOneScreenshot
  rcases hq : acquireImageData env img with ⟨ob, tr⟩
  cases ob with
  | none => simp
  | some bytes =>
    dsimp only
    split
    · rfl
    · split <;> rfl

lemma uploadGo_fetched_mem (env : UploadEnv) :
    ∀ (imgs : List ImageRef) (i : Nat) (acc : UploadResults) (u : String),
      u ∈ (uploadGo env i imgs acc).fetched →
      u ∈ acc.fetched ∨ ∃ img ∈ imgs, img.cachedData = none ∧ img.url = u := by
  intro imgs
  induction imgs with
  | nil => intro i acc u h; exact Or.inl h
  | cons img rest ih =>
    intro i acc u h
    rcases ih (i + 1) (uploadOneScreenshot env i img acc) u h with h1 | ⟨j, hj, hjc⟩
    · rw [uploadOne_fetched] at h1
      rcases List.mem_append.mp h1 with h2 | h2
      · exact Or.inl h2
      · rcases mem_acquire_fetched env img u h2 with ⟨hc, hu⟩
        exact Or.inr ⟨img, List.mem_cons_self img rest, hc, hu⟩
    · exact Or.inr ⟨j, List.mem_cons_of_mem img hj, hjc⟩

/-- C3: for every image whose `cachedData` field is populated, the upload
step uses the cached bytes and never fetches the image's URL — the per-image
acquisition returns the cached bytes with an empty download trace regardless
of `expiresAt`, and every URL `uploadScreenshots` does fetch belongs to an
image without cached bytes. -/
theorem cached_images_never_refetched (env : UploadEnv) (img : ImageRef)
    (bs : List Nat) (images : List ImageRef) (h : img.cachedData = some bs) :
    acquireImageData env img = (some bs, []) ∧
    ∀ u ∈ (uploadScreenshots env images).fetched,
      ∃ i ∈ images, i.cachedData = none ∧ i.url = u := by
  constructor
  · unfold acquireImageData
    rw [h]
  · intro u hu
    rcases uploadGo_fetched_mem env images 0 ⟨0, 0, [], []⟩ u hu with h1 | h1
    · simp at h1
    · exact h1

def c3Env : UploadEnv :=
  ⟨50, fun _ => some [1, 2], fun _ _ _ => some ⟨"up", "asset"⟩, fun _ => true⟩

def c3Img : ImageRef := ⟨"u1", "a.png", 0, 10, some [9]⟩

theorem cached_images_never_refetched_witness :
    acquireImageData c3Env c3Img = (some [9], []) ∧
    ∀ u ∈ (uploadScreenshots c3Env [c3Img]).fetched,
      ∃ i ∈ [c3Img], i.cachedData = none ∧ i.url = u :=
  cached_images_never_refetched c3Env c3Img [9] [c3Img] rfl

/-- C7: an image whose `expiresAt` equals the current time exactly is
treated as expired: `downloadSingleScreenshotImage` returns `none` without
any fetch, and `uploadScreenshots` (with no cached bytes) counts it failed
with no download attempted. -/
theorem expiry_boundary_treated_expired (denv : DownloadEnv) (uenv : UploadEnv)
    (img : ImageRef) (hd : img.expiresAt = denv.now) (hu : img.expiresAt = uenv.now)
    (hc : img.cachedData = none) :
    downloadSingleScreenshotImage denv img = (none, 0) ∧
    acquireImageData uenv img = (none, []) ∧
    uploadScreenshots uenv [img] = ⟨0, 1, [], []⟩ := by
    refine ⟨?_, ?_, ?_⟩
    · unfold downloadSingleScreenshotImage
      rw [hd]
      simp
    · unfold acquireImageData
      rw [hc, hu]
      simp
    · unfold uploadScreenshots uploadGo uploadOneScreenshot
      have hq : acquireImageData uenv img = (none, []) := by
        unfold acquireImageData
        rw [hc, hu]
        simp
      rw [hq]
      rfl

def c7DEnv : DownloadEnv := ⟨50, fun _ => FetchOutcome.ok [1]⟩

def c7UEnv : UploadEnv :=
  ⟨50, fun _ => some [1], fun _ _ _ => some ⟨"up", "asset"⟩, fun _ => true⟩

def c7Img : ImageRef := ⟨"u", "a.png", 0, 50, none⟩

theorem expiry_boundary_treated_expired_witness :
    downloadSingleScreenshotImage c7DEnv c7Img = (none, 0) ∧
    acquireImageData c7UEnv c7Img = (none, []) ∧
    uploadScreenshots c7UEnv [c7Img] = ⟨0, 1, [], []⟩ :=
  expiry_boundary_treated_expired c7DEnv c7UEnv c7Img rfl rfl rfl

/-- C10: when a screenshot's source attributes omit `expiresAt`,
normalization stamps `expiresAt` exactly one hour (3600000 ms) after the
processing time, so at any check time within that hour the download guard
does not treat the image as expired: the downloader proceeds to fetch and
the upload acquisition proceeds to download. -/
theorem missing_expiry_defaults_one_hour (now idx t : Nat) (img : RawImage)
    (h : img.expiresAt = none) (ht : t < now + 3600000)
    (denv : DownloadEnv) (hdn : denv.now = t) (b : List Nat)
    (hfetch : denv.fetch 1 = FetchOutcome.ok b)
    (uenv : UploadEnv) (hun : uenv.now = t) (bs : List Nat)
    (hdl : uenv.download img.url = some bs) :
    (processScreenshotImage now idx img).expiresAt = now + 3600000 ∧
    downloadSingleScreenshotImage denv (processScreenshotImage now idx img) = (some b, 1) ∧
    acquireImageData uenv (processScreenshotImage now idx img) = (some bs, [img.url]) := by
  have hexp : (processScreenshotImage now idx img).expiresAt = now + 3600000 := by
    unfold processScreenshotImage
    rw [h]
    rfl
  have hgate : ¬ (processScreenshotImage now idx img).expiresAt ≤ t := by
    rw [hexp]; omega
  refine ⟨hexp, ?_, ?_⟩
  · unfold downloadSingleScreenshotImage
    rw [hdn, if_neg hgate]
    unfold dssGo
    rw [hfetch]
  · unfold acquireImageData
    have hcd : (processScreenshotImage now idx img).cachedData = none := rfl
    have hu : (processScreenshotImage now idx img).url = img.url := rfl
    rw [hcd, hun, if_neg hgate, hu, hdl]

def c10DEnv : DownloadEnv := ⟨100, fun _ => FetchOutcome.ok [5]⟩

def c10UEnv : UploadEnv :=
  ⟨100, fun _ => some [6], fun _ _ _ => some ⟨"up", "asset"⟩, fun _ => true⟩

def c10Raw : RawImage := ⟨"appleurl", none, none, none⟩

theorem missing_expiry_defaults_one_hour_witness :
    (processScreenshotImage 100 0 c10Raw).expiresAt = 100 + 3600000 ∧
    downloadSingleScreenshotImage c10DEnv (processScreenshotImage 100 0 c10Raw) = (some [5], 1) ∧
    acquireImageData c10UEnv (processScreenshotImage 100 0 c10Raw) = (some [6], ["appleurl"]) :=
  missing_expiry_defaults_one_hour 100 0 100 c10Raw rfl (by omega) c10DEnv rfl [5] rfl
    c10UEnv rfl [6] rfl

/-! ## Supporting lemmas: duplicate detector and orchestrator -/

lemma dupAttempt_error_of_tier1 (env : DupEnv) (fid : String) (a : Nat) (e : String)
    (h : env.tier1 a = Except.error e) : dupAttempt env fid a = Except.error e := by
  unfold dupAttempt
  rw [h]

lemma dupAttempt_some_desc (env : DupEnv) (fid : String) (a : Nat) (i : Issue)
    (h : dupAttempt env fid a = Except.ok (some i)) : descContains i fid = true := by
  unfold dupAttempt at h
  cases h1 : env.tier1 a with
  | error e => rw [h1] at h; simp at h
  | ok l1 =>
    rw [h1] at h
    dsimp only at h
    cases hm1 : firstDescMatch fid l1 with
    | some j =>
      rw [hm1] at h
      have hj := List.find?_some hm1
      simp only [Except.ok.injEq, Option.some.injEq] at h
      rw [← h]
      exact hj
    | none =>
      rw [hm1] at h
      dsimp only at h
      cases h2 : env.tier2 a with
      | error e => rw [h2] at h; simp at h
      | ok l2 =>
        rw [h2] at h
        dsimp only at h
        cases hm2 : tier2DescMatch env.teamId fid l2 with
        | some j =>
          rw [hm2] at h
          have hj := List.find?_some hm2
          simp only [Except.ok.injEq, Option.some.injEq] at h
          rw [← h]
          exact (Bool.and_eq_true_iff.mp hj).2
        | none =>
          rw [hm2] at h
          dsimp only at h
          cases h3 : env.tier3 a with
          | error e => rw [h3] at h; simp at h
          | ok l3 =>
            rw [h3] at h
            dsimp only at h
            cases hm3 : firstDescMatch fid l3 with
            | some j =>
              rw [hm3] at h
              have hj := List.find?_some hm3
              simp only [Except.ok.injEq, Option.some.injEq] at h
              rw [← h]
              exact hj
            | none => rw [hm3] at h; simp at h

/-- C1: when every retry attempt of the duplicate detector throws (all three
search tiers error on every attempt — strategy 1 already throws, so the
later tiers are never consulted), `findDuplicateIssue` fails with an error
and `createIssueFromTestFlight` propagates a failure with an empty tracker
trace: no create call (and no comment call) is ever issued — fail-closed. -/
theorem dup_detector_fail_closed (env : OrchestratorEnv) (fid : String)
    (labelNames : List String)
    (hflag : env.enableDuplicateDetection = true)
    (h1 : ∀ a, ∃ e, env.dup.tier1 a = Except.error e)
    (h2 : ∀ a, ∃ e, env.dup.tier2 a = Except.error e)
    (h3 : ∀ a, ∃ e, env.dup.tier3 a = Except.error e) :
    (∃ m, findDuplicateIssue env.dup fid = Except.error m) ∧
    (∃ m, (createIssueFromTestFlight env fid labelNames).1 = FileOutcome.failed m) ∧
    (createIssueFromTestFlight env fid labelNames).2 = [] := by
  obtain ⟨e1, he1⟩ := h1 1
  obtain ⟨e2, he2⟩ := h1 2
  obtain ⟨e3, he3⟩ := h1 3
  have hfd : findDuplicateIssue env.dup fid =
      Except.error ("Failed to check for duplicate Linear issues: " ++ e3 ++
        ". Cannot safely proceed without duplicate check.") := by
    unfold findDuplicateIssue findDupGo
    rw [dupAttempt_error_of_tier1 env.dup fid 1 e1 he1]
    unfold findDupGo
    rw [dupAttempt_error_of_tier1 env.dup fid 2 e2 he2]
    unfold findDupGo
    rw [dupAttempt_error_of_tier1 env.dup fid 3 e3 he3]
    rfl
  refine ⟨⟨_, hfd⟩, ?_, ?_⟩ <;>
    · unfold createIssueFromTestFlight
      rw [hflag, hfd]
      simp

def c1DupEnv : DupEnv :=
  ⟨"team1", fun _ => Except.error "boom", fun _ => Except.error "boom",
    fun _ => Except.error "boom"⟩

def c1Env : OrchestratorEnv :=
  ⟨c1DupEnv, true, fun _ => Except.ok (), ⟨fun _ => Except.error "labels down"⟩,
    fun _ => Except.ok ⟨"I1", "T-1", some "desc", "team1"⟩⟩

theorem dup_detector_fail_closed_witness :
    (∃ m, findDuplicateIssue c1Env.dup "fb-1" = Except.error m) ∧
    (∃ m, (createIssueFromTestFlight c1Env "fb-1" ["bug"]).1 = FileOutcome.failed m) ∧
    (createIssueFromTestFlight c1Env "fb-1" ["bug"]).2 = [] :=
  dup_detector_fail_closed c1Env "fb-1" ["bug"] rfl (fun _ => ⟨"boom", rfl⟩)
    (fun _ => ⟨"boom", rfl⟩) (fun _ => ⟨"boom", rfl⟩)

/-- C2: when the first attempt's tier cascade finds an issue (first matching
tier wins), that issue's description really contains the feedback id,
`findDuplicateIssue` returns exactly that issue, and the orchestrator
appends a comment to it and returns it: terminal state COMMENTED with a
single comment call in the trace — never a create call. -/
theorem duplicate_comments_not_creates (env : OrchestratorEnv) (fid : String)
    (labelNames : List String) (issue : Issue)
    (hflag : env.enableDuplicateDetection = true)
    (hfound : dupAttempt env.dup fid 1 = Except.ok (some issue))
    (hcomment : env.comment issue.id = Except.ok ()) :
    findDuplicateIssue env.dup fid = Except.ok (some issue) ∧
    descContains issue fid = true ∧
    (createIssueFromTestFlight env fid labelNames).1 = FileOutcome.commented issue ∧
    (createIssueFromTestFlight env fid labelNames).2 =
      [TrackerCall.createComment issue.id] := by
  have hfd : findDuplicateIssue env.dup fid = Except.ok (some issue) := by
    unfold findDuplicateIssue findDupGo
    rw [hfound]
  refine ⟨hfd, dupAttempt_some_desc env.dup fid 1 issue hfound, ?_, ?_⟩ <;>
    · unfold createIssueFromTestFlight
      rw [hflag, hfd]
      simp [hcomment]

def c2Issue : Issue := ⟨"I9", "T-9", some "TestFlight ID: fb-9", "team1"⟩

def c2DupEnv : DupEnv :=
  ⟨"team1", fun _ => Except.ok [c2Issue], fun _ => Except.ok [],
    fun _ => Except.ok []⟩

def c2Env : OrchestratorEnv :=
  ⟨c2DupEnv, true, fun _ => Except.ok (), ⟨fun _ => Except.error "labels down"⟩,
    fun _ => Except.ok c2Issue⟩

theorem duplicate_comments_not_creates_witness :
    findDuplicateIssue c2Env.dup "fb-9" = Except.ok (some c2Issue) ∧
    descContains c2Issue "fb-9" = true ∧
    (createIssueFromTestFlight c2Env "fb-9" ["bug"]).1 = FileOutcome.commented c2Issue ∧
    (createIssueFromTestFlight c2Env "fb-9" ["bug"]).2 =
      [TrackerCall.createComment c2Issue.id] :=
  duplicate_comments_not_creates c2Env "fb-9" ["bug"] c2Issue rfl (by rfl) rfl

/-! ## Supporting lemmas: date filter and ordering -/

lemma processDate_ge (since now : Nat) (a : SubmissionAttrs)
    (h : since ≤ submissionFilterDate a) : since ≤ submissionProcessDate now a := by
  unfold submissionFilterDate at h
  unfold submissionProcessDate
  cases hcd : a.createdDate <;> cases hsa : a.submittedAt <;>
    simp only [hcd, hsa, Option.getD_some, Option.getD_none] at h ⊢ <;> omega

/-- C6: every record returned by `getEnhancedRecentFeedback` has a
submission date at or after the `since` cutoff (the newest-first page is
filtered client-side), and the returned list is sorted by `submittedAt` in
descending order. -/
theorem feedback_filtered_and_sorted (now since : Nat)
    (crashes screenshots : List Submission) :
    (∀ r ∈ getEnhancedRecentFeedback now since crashes screenshots,
      since ≤ r.submittedAt) ∧
    List.Sorted feedbackDescOrder (getEnhancedRecentFeedback now since crashes screenshots) := by
  constructor
  · intro r hr
    unfold getEnhancedRecentFeedback at hr
    have hp := (List.perm_insertionSort feedbackDescOrder
      ((filterByDate since crashes).map (processCrashRecord now) ++
        (filterByDate since screenshots).map (processScreenshotRecord now))).mem_iff.mp hr
    rcases List.mem_append.mp hp with hm | hm <;>
    · rcases List.mem_map.mp hm with ⟨s, hs, hsr⟩
      have hfd := (List.mem_filter.mp hs).2
      rw [← hsr]
      exact processDate_ge since now s.attributes (of_decide_eq_true hfd)
  · exact List.sorted_insertionSort feedbackDescOrder _

theorem feedback_filtered_and_sorted_witness :
    5 ≤ (ProcessedFeedback.mk "c1" true 10).submittedAt ∧
    List.Sorted feedbackDescOrder
      (getEnhancedRecentFeedback 20 5 [⟨"c1", ⟨some 10, none⟩⟩, ⟨"c2", ⟨some 3, none⟩⟩]
        [⟨"s1", ⟨none, some 15⟩⟩]) :=
  ⟨(feedback_filtered_and_sorted 20 5 [⟨"c1", ⟨some 10, none⟩⟩, ⟨"c2", ⟨some 3, none⟩⟩]
      [⟨"s1", ⟨none, some 15⟩⟩]).1 ⟨"c1", true, 10⟩ (by decide),
    (feedback_filtered_and_sorted 20 5 [⟨"c1", ⟨some 10, none⟩⟩, ⟨"c2", ⟨some 3, none⟩⟩]
      [⟨"s1", ⟨none, some 15⟩⟩]).2⟩

/-! ## Supporting lemmas: label resolution -/

lemma dedupFirstGo_nodup : ∀ (l seen : List String),
    (dedupFirstGo l seen).Nodup ∧ ∀ y ∈ dedupFirstGo l seen, y ∉ seen := by
  intro l
  induction l with
  | nil => intro seen; exact ⟨List.nodup_nil, by simp [dedupFirstGo]⟩
  | cons x xs ih =>
    intro seen
    unfold dedupFirstGo
    by_cases hx : x ∈ seen
    · simpa [hx] using ih seen
    · rw [if_neg hx]
      obtain ⟨hnd, hout⟩ := ih (x :: seen)
      refine ⟨List.nodup_cons.mpr ⟨fun hmem => ?_, hnd⟩, ?_⟩
      · exact hout x hmem (List.mem_cons_self x seen)
      · intro y hy
        rcases List.mem_cons.mp hy with rfl | hy2
        · exact hx
        · exact fun hys => hout y hy2 (List.mem_cons_of_mem x hys)

lemma dedupFirst_nodup (l : List String) : (dedupFirst l).Nodup :=
  (dedupFirstGo_nodup l []).1

lemma dedupFirstGo_length_le : ∀ (l seen : List String),
    (dedupFirstGo l seen).length ≤ l.length := by
  intro l
  induction l with
  | nil => intro seen; simp [dedupFirstGo]
  | cons x xs ih =>
    intro seen
    unfold dedupFirstGo
    by_cases hx : x ∈ seen
    · rw [if_pos hx]
      exact Nat.le_succ_of_le (ih seen)
    · rw [if_neg hx]
      simpa using Nat.succ_le_succ (ih (x :: seen))

lemma dedupFirstGo_const_nil (c : String) : ∀ (l seen : List String),
    (∀ x ∈ l, x = c) → c ∈ seen → dedupFirstGo l seen = [] := by
  intro l
  induction l with
  | nil => intro seen _ _; rfl
  | cons x xs ih =>
    intro seen hall hc
    have hx : x = c := hall x (List.mem_cons_self x xs)
    unfold dedupFirstGo
    rw [if_pos (hx ▸ hc)]
    exact ih seen (fun y hy => hall y (List.mem_cons_of_mem x hy)) hc

lemma dedupFirstGo_const_len (c : String) : ∀ (l seen : List String),
    (∀ x ∈ l, x = c) → (dedupFirstGo l seen).length ≤ 1 := by
  intro l
  induction l with
  | nil => intro seen _; simp [dedupFirstGo]
  | cons x xs ih =>
    intro seen hall
    have hx : x = c := hall x (List.mem_cons_self x xs)
    unfold dedupFirstGo
    by_cases hmem : x ∈ seen
    · rw [if_pos hmem]
      exact ih seen (fun y hy => hall y (List.mem_cons_of_mem x hy))
    · rw [if_neg hmem]
      have := dedupFirstGo_const_nil c xs (x :: seen)
        (fun y hy => hall y (List.mem_cons_of_mem x hy))
        (hx ▸ List.mem_cons_self x seen)
      simp [this]

lemma resolveLoop_length_le (aenv : LabelAttemptEnv) (labelMap : List (String × String))
    (parents : List String) : ∀ (ns acc : List String),
    (resolveLoop aenv labelMap parents ns acc).length ≤ acc.length + ns.length := by
  intro ns
  induction ns with
  | nil => intro acc; simp [resolveLoop]
  | cons n ns2 ih =>
    intro acc
    have hstep : ∀ acc2 : List String, acc2.length ≤ acc.length + 1 →
        (resolveLoop aenv labelMap parents ns2 acc2).length ≤ acc.length + (ns2.length + 1) := by
      intro acc2 h2
      calc (resolveLoop aenv labelMap parents ns2 acc2).length
          ≤ acc2.length + ns2.length := ih acc2
        _ ≤ acc.length + 1 + ns2.length := Nat.add_le_add_right h2 ns2.length
        _ = acc.length + (ns2.length + 1) := by omega
    unfold resolveLoop
    simp only [List.length_cons]
    by_cases hp : parents.contains (toLowerStr n)
    · rw [if_pos hp]
      exact hstep acc (Nat.le_succ _)
    · rw [if_neg hp]
      cases mapGet labelMap (toLowerStr n) with
      | some lid =>
        dsimp only
        by_cases hmem : lid ∈ acc
        · rw [if_pos hmem]; exact hstep acc (Nat.le_succ _)
        · rw [if_neg hmem]; exact hstep (acc ++ [lid]) (by simp)
      | none =>
        dsimp only
        cases aenv.create n with
        | created nid =>
          dsimp only
          by_cases hmem : nid ∈ acc
          · rw [if_pos hmem]; exact hstep acc (Nat.le_succ _)
          · rw [if_neg hmem]; exact hstep (acc ++ [nid]) (by simp)
        | failed => exact hstep acc (Nat.le_succ _)
        | duplicateExists =>
          dsimp only
          cases aenv.refetchLabels.find?
              (fun l => toLowerStr l.name == toLowerStr n && !(acc.contains l.id)) with
          | some l => exact hstep (acc ++ [l.id]) (by simp)
          | none => exact hstep acc (Nat.le_succ _)
        | otherThrow => exact hstep acc (Nat.le_succ _)

lemma resolveLabelsGo_length_le (env : LabelEnv) (names : List String) :
    ∀ (fuel a : Nat), (resolveLabelsGo env names fuel a).length ≤ names.length := by
  intro fuel
  induction fuel with
  | zero => intro a; simp [resolveLabelsGo]
  | succ f ih =>
    intro a
    unfold resolveLabelsGo
    cases env.attempt a with
    | ok aenv =>
      unfold runLabelAttempt
      simpa using resolveLoop_length_le aenv _ _ names []
    | error e => exact ih (a + 1)

lemma resolveLabelNamesToIds_length_le (env : LabelEnv) (names : List String) :
    (resolveLabelNamesToIds env names).length ≤ names.length := by
  unfold resolveLabelNamesToIds
  by_cases h : names.isEmpty
  · simp [h]
  · rw [if_neg h]
    exact resolveLabelsGo_length_le env names 3 1

/-- C8 (amended): label resolution in `createIssueFromTestFlight` produces
at most one resolved id per case-insensitive equivalence class — never two —
and the resolved id list as a whole never contains duplicates.  (It can
produce zero ids for a class, e.g. when the class matches a known
group/parent label or creation fails; see the counterexample.) -/
theorem label_resolution_at_most_one (env : LabelEnv) (labels : List String)
    (c : String) (hall : ∀ x ∈ labels, toLowerStr x = c) :
    (labelResolutionInCreate env labels).length ≤ 1 ∧
    ∀ (env2 : LabelEnv) (labels2 : List String),
      (labelResolutionInCreate env2 labels2).Nodup := by
  constructor
  · unfold labelResolutionInCreate
    have hnames : (dedupFirst (labels.map toLowerStr)).length ≤ 1 := by
      unfold dedupFirst
      refine dedupFirstGo_const_len c (labels.map toLowerStr) [] ?_
      intro x hx
      rcases List.mem_map.mp hx with ⟨y, hy, rfl⟩
      exact hall y hy
    calc (dedupFirst (resolveLabelNamesToIds env (dedupFirst (labels.map toLowerStr)))).length
        ≤ (resolveLabelNamesToIds env (dedupFirst (labels.map toLowerStr))).length :=
          dedupFirstGo_length_le _ []
      _ ≤ (dedupFirst (labels.map toLowerStr)).length :=
          resolveLabelNamesToIds_length_le env _
      _ ≤ 1 := hnames
  · intro env2 labels2
    exact dedupFirst_nodup _

def c8Env : LabelEnv :=
  ⟨fun _ => Except.ok ⟨[⟨"Bug", "L1", some 0⟩], fun _ => CreateLabelOutcome.otherThrow, []⟩⟩

/-- C8 counterexample: with the workspace holding a label named `Bug`, the
name list `["Bug", "bug"]` — one case-insensitive equivalence class — is
deduplicated to `["bug"]`, which matches the hardcoded group-label skip list,
so label resolution produces zero resolved ids, not exactly one. -/
theorem label_case_duplicates_zero_ids :
    labelResolutionInCreate c8Env ["Bug", "bug"] = [] ∧
    (labelResolutionInCreate c8Env ["Bug", "bug"]).length ≠ 1 := by
  constructor
  · rfl
  · decide

theorem label_resolution_at_most_one_witness :
    (labelResolutionInCreate c8Env ["Bug", "bug"]).length ≤ 1 ∧
    ∀ (env2 : LabelEnv) (labels2 : List String),
      (labelResolutionInCreate env2 labels2).Nodup :=
  label_resolution_at_most_one c8Env ["Bug", "bug"] "bug"
    (by intro x hx; fin_cases hx <;> rfl)

/-! ## Supporting lemmas: request executor -/

/-- The context an `AttemptResult` carries, whichever way the attempt ended. -/
def attemptStateOf {T : Type} : AttemptResult T → RunState
  | AttemptResult.finished _ st => st
  | AttemptResult.wantRetry st => st

lemma runAttempt_state_attempts {T : Type} (oc : Nat → AttemptOutcome T) (a : Nat)
    (st : RunState) :
    (attemptStateOf (runAttempt oc a st)).attemptsMade = st.attemptsMade + 1 := by
  unfold runAttempt attemptStateOf
  cases oc a with
  | success d headers => rfl
  | httpError s txt body headers =>
    dsimp only
    by_cases h : (authAbortCheck (httpErrMsg s txt body) (some s) ||
        clientAbortCheck (some s)) = true
    · rw [if_pos h]
    · rw [if_neg h]
  | exn m =>
    dsimp only
    by_cases h : (authAbortCheck m st.lastStatus || clientAbortCheck st.lastStatus) = true
    · rw [if_pos h]
    · rw [if_neg h]

lemma runAttempt_state_dispatches {T : Type} (oc : Nat → AttemptOutcome T) (a : Nat)
    (st : RunState) :
    (attemptStateOf (runAttempt oc a st)).dispatches =
      st.dispatches ++ [(st.t + waitForRateLimitDelay st.rl st.t, st.rl)] := by
  unfold runAttempt attemptStateOf
  cases oc a with
  | success d headers => rfl
  | httpError s txt body headers =>
    dsimp only
    by_cases h : (authAbortCheck (httpErrMsg s txt body) (some s) ||
        clientAbortCheck (some s)) = true
    · rw [if_pos h]
    · rw [if_neg h]
  | exn m =>
    dsimp only
    by_cases h : (authAbortCheck m st.lastStatus || clientAbortCheck st.lastStatus) = true
    · rw [if_pos h]
    · rw [if_neg h]

/-- The property C9 asserts of every dispatch: if the snapshot current at the
gate had `remaining <= 5`, the dispatch did not happen before its reset. -/
def dispatchOk (p : Nat × Option RateLimitInfo) : Prop :=
  ∀ s, p.2 = some s → s.remaining ≤ 5 → s.reset ≤ p.1

lemma dispatchOk_new (st : RunState) :
    dispatchOk (st.t + waitForRateLimitDelay st.rl st.t, st.rl) := by
  intro s hs hrem
  dsimp only at hs ⊢
  rw [hs]
  show s.reset ≤ st.t + (if s.remaining ≤ 5 then
    (if 0 < s.reset - st.t then s.reset - st.t else 0) else 0)
  rw [if_pos hrem]
  by_cases h0 : 0 < s.reset - st.t
  · rw [if_pos h0]; omega
  · rw [if_neg h0]; omega

lemma marGo_dispatches_ok {T : Type} (retries rd : Nat) (jit : Nat → Nat)
    (oc : Nat → AttemptOutcome T) :
    ∀ (n a : Nat) (st : RunState), (∀ p ∈ st.dispatches, dispatchOk p) →
      ∀ p ∈ (marGo retries rd jit oc n a st).final.dispatches, dispatchOk p := by
  intro n
  induction n with
  | zero => intro a st hinv p hp; exact hinv p hp
  | succ m ih =>
    intro a st hinv
    have hnew : ∀ p ∈ (attemptStateOf (runAttempt oc a st)).dispatches, dispatchOk p := by
      rw [runAttempt_state_dispatches oc a st]
      intro p hp
      rcases List.mem_append.mp hp with h1 | h1
      · exact hinv p h1
      · rw [List.mem_singleton.mp h1]
        exact dispatchOk_new st
    unfold marGo
    cases hra : runAttempt oc a st with
    | finished r st2 =>
      rw [hra] at hnew
      exact fun p hp => hnew p hp
    | wantRetry st2 =>
      rw [hra] at hnew
      dsimp only [attemptStateOf] at hnew
      dsimp only
      split
      · exact fun p hp => hnew p hp
      · exact ih (a + 1) _ (fun p hp => hnew p hp)

/-- C9: before every dispatch, `makeApiRequest` consults the last recorded
rate-limit snapshot; whenever that snapshot has `remaining <= 5` and its
reset is still ahead, the gate sleeps exactly until the reset, so no
dispatch in the whole run happens strictly before the reset time of the
snapshot that was current at its gate. -/
theorem rate_limit_gate_blocks_dispatch {T : Type} (retries rd : Nat)
    (jit : Nat → Nat) (oc : Nat → AttemptOutcome T) (t0 : Nat)
    (rl0 : Option RateLimitInfo) :
    (∀ (now : Nat) (info : RateLimitInfo), info.remaining ≤ 5 →
      info.reset ≤ now + waitForRateLimitDelay (some info) now) ∧
    ∀ p ∈ (makeApiRequest retries rd jit oc t0 rl0).final.dispatches,
      ∀ s, p.2 = some s → s.remaining ≤ 5 → s.reset ≤ p.1 := by
  constructor
  · intro now info hrem
    exact dispatchOk_new ⟨now, some info, none, none, 0, [], []⟩ info rfl hrem
  · intro p hp
    exact marGo_dispatches_ok retries rd jit oc (retries + 1) 0 (initState t0 rl0)
      (by simp [initState]) p hp

def c9Oc : Nat → AttemptOutcome Nat := fun _ => AttemptOutcome.success 7 none

theorem rate_limit_gate_blocks_dispatch_witness :
    ((100, some (⟨3, 100, 10⟩ : RateLimitInfo)) ∈
      (makeApiRequest 0 0 (fun _ => 0) c9Oc 50 (some ⟨3, 100, 10⟩)).final.dispatches) ∧
    (⟨3, 100, 10⟩ : RateLimitInfo).reset ≤
      (100, some (⟨3, 100, 10⟩ : RateLimitInfo)).1 :=
  ⟨by decide,
    (rate_limit_gate_blocks_dispatch 0 0 (fun _ => 0) c9Oc 50 (some ⟨3, 100, 10⟩)).2
      (100, some ⟨3, 100, 10⟩) (by decide) ⟨3, 100, 10⟩ rfl (by decide)⟩

/-- The loop context after a non-2xx attempt with a parsed error body. -/
def httpSt (st : RunState) (s : Nat) (txt : String)
    (entries : List (String × String)) (hdr : Option RateLimitInfo) : RunState :=
  { st with t := st.t + waitForRateLimitDelay st.rl st.t,
            dispatches := st.dispatches ++ [(st.t + waitForRateLimitDelay st.rl st.t, st.rl)],
            attemptsMade := st.attemptsMade + 1,
            rl := updRL st.rl hdr,
            lastStatus := some s,
            lastErr := some (httpErrMsg s txt (some entries)) }

lemma runAttempt_http {T : Type} (oc : Nat → AttemptOutcome T) (a : Nat)
    (st : RunState) (s : Nat) (txt : String) (entries : List (String × String))
    (hdr : Option RateLimitInfo)
    (hoc : oc a = AttemptOutcome.httpError s txt (some entries) hdr) :
    runAttempt oc a st =
      if authAbortCheck (httpErrMsg s txt (some entries)) (some s) ||
          clientAbortCheck (some s) then
        AttemptResult.finished (Except.error (httpErrMsg s txt (some entries)))
          (httpSt st s txt entries hdr)
      else AttemptResult.wantRetry (httpSt st s txt entries hdr) := by
  unfold runAttempt httpSt
  rw [hoc]

lemma range_map_shift {α : Type} (f : Nat → α) (n a : Nat) :
    f a :: (List.range n).map (fun k => f (a + 1 + k)) =
      (List.range (n + 1)).map (fun k => f (a + k)) := by
  have h1 : f a = f (a + 0) := congrArg f (by omega)
  have h2 : (List.range n).map (fun k => f (a + 1 + k)) =
      (List.range n).map ((fun k => f (a + k)) ∘ Nat.succ) := by
    refine List.map_congr_left ?_
    intro k _
    exact congrArg f (by omega)
  rw [List.range_succ_eq_map, List.map_cons, List.map_map, ← h1, ← h2]

lemma marGo_exhaust {T : Type} (retries rd : Nat) (jit : Nat → Nat)
    (oc : Nat → AttemptOutcome T) (stxt : Nat → String)
    (body : Nat → List (String × String)) (hdr : Nat → Option RateLimitInfo)
    (hoc : ∀ a, oc a = AttemptOutcome.httpError 503 (stxt a) (some (body a)) (hdr a))
    (hauth : ∀ a,
      authAbortCheck (httpErrMsg 503 (stxt a) (some (body a))) (some 503) = false) :
    ∀ (n a : Nat) (st : RunState),
      (marGo retries rd jit oc (n + 1) a st).result =
        Except.error (finalMsg retries
          (some (httpErrMsg 503 (stxt (a + n)) (some (body (a + n))))) (some 503)) ∧
      (marGo retries rd jit oc (n + 1) a st).final.attemptsMade =
        st.attemptsMade + (n + 1) ∧
      (marGo retries rd jit oc (n + 1) a st).final.delays =
        st.delays ++ (List.range n).map (fun k => rd * 2 ^ (a + k) + jit (a + k)) := by
  have hclient : clientAbortCheck (some 503) = false := by decide
  intro n
  induction n with
  | zero =>
    intro a st
    have hra := runAttempt_http oc a st 503 (stxt a) (body a) (hdr a) (hoc a)
    rw [hauth a, hclient] at hra
    simp at hra
    unfold marGo
    rw [hra]
    dsimp only
    rw [if_pos rfl]
    refine ⟨?_, ?_, ?_⟩ <;> simp [httpSt, finalMsg]
  | succ m ih =>
    intro a st
    have hra := runAttempt_http oc a st 503 (stxt a) (body a) (hdr a) (hoc a)
    rw [hauth a, hclient] at hra
    simp at hra
    unfold marGo
    rw [hra]
    dsimp only
    rw [if_neg (Nat.succ_ne_zero m)]
    have h' := ih (a + 1)
      { httpSt st 503 (stxt a) (body a) (hdr a) with
          t := (httpSt st 503 (stxt a) (body a) (hdr a)).t + (rd * 2 ^ a + jit a),
          delays := (httpSt st 503 (stxt a) (body a) (hdr a)).delays ++
            [rd * 2 ^ a + jit a] }
    obtain ⟨h1, h2, h3⟩ := h'
    have hidx : a + 1 + m = a + (m + 1) := by omega
    refine ⟨?_, ?_, ?_⟩
    · rw [h1, hidx]
    · rw [h2]
      simp only [httpSt]
      omega
    · rw [h3]
      simp only [httpSt]
      rw [List.append_assoc, List.singleton_append]
      congr 1
      exact range_map_shift (fun x => rd * 2 ^ x + jit x) m a

/-- C4: when every attempt fails with a retryable 503 (and a generic error
body), `makeApiRequest` performs exactly `retries + 1` attempts — 3 with the
default configuration — sleeps `retryDelay * 2 ^ attempt + jitter` between
consecutive attempts (the jitter term being at most 10% of the base), and
then fails with the single wrapped error carrying the attempt count, the
last status code (503) and the last error message. -/
theorem retry_exhaustion_behavior {T : Type} (retries rd : Nat) (jit : Nat → Nat)
    (oc : Nat → AttemptOutcome T) (stxt : Nat → String)
    (body : Nat → List (String × String)) (hdr : Nat → Option RateLimitInfo)
    (t0 : Nat) (rl0 : Option RateLimitInfo)
    (hoc : ∀ a, oc a = AttemptOutcome.httpError 503 (stxt a) (some (body a)) (hdr a))
    (hauth : ∀ a,
      authAbortCheck (httpErrMsg 503 (stxt a) (some (body a))) (some 503) = false)
    (hjit : ∀ a, 10 * jit a ≤ rd * 2 ^ a) :
    (makeApiRequest retries rd jit oc t0 rl0).result =
      Except.error (finalMsg retries
        (some (httpErrMsg 503 (stxt retries) (some (body retries)))) (some 503)) ∧
    (makeApiRequest retries rd jit oc t0 rl0).final.attemptsMade = retries + 1 ∧
    (retries = defaultRetriesModelled →
      (makeApiRequest retries rd jit oc t0 rl0).final.attemptsMade = 3) ∧
    (makeApiRequest retries rd jit oc t0 rl0).final.delays =
      (List.range retries).map (fun a => rd * 2 ^ a + jit a) ∧
    ∀ d ∈ (makeApiRequest retries rd jit oc t0 rl0).final.delays,
      ∃ a, a < retries ∧ rd * 2 ^ a ≤ d ∧ 10 * d ≤ 11 * (rd * 2 ^ a) := by
  obtain ⟨h1, h2, h3⟩ :=
    marGo_exhaust retries rd jit oc stxt body hdr hoc hauth retries 0 (initState t0 rl0)
  have hdel : (makeApiRequest retries rd jit oc t0 rl0).final.delays =
      (List.range retries).map (fun a => rd * 2 ^ a + jit a) := by
    unfold makeApiRequest
    rw [h3]
    simp [initState]
  refine ⟨?_, ?_, ?_, hdel, ?_⟩
  · unfold makeApiRequest
    rw [h1]
    simp
  · unfold makeApiRequest
    rw [h2]
    simp [initState]
  · intro hdef
    unfold makeApiRequest
    rw [h2]
    simp [initState, hdef, defaultRetriesModelled]
  · intro d hd
    rw [hdel] at hd
    rcases List.mem_map.mp hd with ⟨a, ha, rfl⟩
    have haR := List.mem_range.mp ha
    have := hjit a
    exact ⟨a, haR, by omega, by omega⟩

def c4Oc : Nat → AttemptOutcome Unit :=
  fun _ => AttemptOutcome.httpError 503 "Service Unavailable"
    (some [("Error", "The request failed")]) none

theorem retry_exhaustion_behavior_witness :
    (makeApiRequest 2 1000 (fun _ => 0) c4Oc 0 none).final.attemptsMade = 3 ∧
    (makeApiRequest 2 1000 (fun _ => 0) c4Oc 0 none).final.delays = [1000, 2000] ∧
    (makeApiRequest 2 1000 (fun _ => 0) c4Oc 0 none).result =
      Except.error (finalMsg 2
        (some (httpErrMsg 503 "Service Unavailable" (some [("Error", "The request failed")])))
        (some 503)) := by
  have h := retry_exhaustion_behavior 2 1000 (fun _ => 0) c4Oc
    (fun _ => "Service Unavailable") (fun _ => [("Error", "The request failed")])
    (fun _ => none) 0 none (fun _ => rfl)
    (fun _ => by
      show authAbortCheck (httpErrMsg 503 "Service Unavailable"
        (some [("Error", "The request failed")])) (some 503) = false
      decide)
    (fun _ => Nat.zero_le _)
  refine ⟨h.2.1, ?_, h.1⟩
  rw [h.2.2.2.1]
  decide

/-! ## Supporting lemmas: retry decision (C5) -/

lemma isRetryable_eq_spec (s2 : Nat) (m2 : String) :
    isRetryableError s2 m2 = retryableSpecClass s2 m2 := by
  unfold isRetryableError retryableSpecClass
  by_cases h1 : s2 == 429 <;> by_cases h2 : 500 ≤ s2 <;>
    by_cases h3 : containsSubstr m2 "timeout" <;>
    by_cases h4 : containsSubstr m2 "network" <;>
    by_cases h5 : containsSubstr m2 "temporarily unavailable" <;>
    by_cases h6 : containsSubstr m2 "service unavailable" <;>
    simp [h1, h2, h3, h4, h5, h6]

lemma marGo_attempts_mono {T : Type} (retries rd : Nat) (jit : Nat → Nat)
    (oc : Nat → AttemptOutcome T) :
    ∀ (n a : Nat) (st : RunState),
      st.attemptsMade ≤ (marGo retries rd jit oc n a st).final.attemptsMade := by
  intro n
  induction n with
  | zero => intro a st; exact Nat.le_refl _
  | succ m ih =>
    intro a st
    have hat := runAttempt_state_attempts oc a st
    unfold marGo
    cases hra : runAttempt oc a st with
    | finished r st2 =>
      rw [hra] at hat
      dsimp only [attemptStateOf] at hat
      show st.attemptsMade ≤ st2.attemptsMade
      omega
    | wantRetry st2 =>
      rw [hra] at hat
      dsimp only [attemptStateOf] at hat
      dsimp only
      split
      · show st.attemptsMade ≤ st2.attemptsMade
        omega
      · refine Nat.le_trans ?_ (ih (a + 1) _)
        show st.attemptsMade ≤ st2.attemptsMade
        omega

lemma marGo_attempts_ge {T : Type} (retries rd : Nat) (jit : Nat → Nat)
    (oc : Nat → AttemptOutcome T) :
    ∀ (n a : Nat) (st : RunState), 1 ≤ n →
      st.attemptsMade + 1 ≤ (marGo retries rd jit oc n a st).final.attemptsMade := by
  intro n
  cases n with
  | zero => intro a st h; exact absurd h (by omega)
  | succ m =>
    intro a st _
    have hat := runAttempt_state_attempts oc a st
    unfold marGo
    cases hra : runAttempt oc a st with
    | finished r st2 =>
      rw [hra] at hat
      dsimp only [attemptStateOf] at hat
      show st.attemptsMade + 1 ≤ st2.attemptsMade
      omega
    | wantRetry st2 =>
      rw [hra] at hat
      dsimp only [attemptStateOf] at hat
      dsimp only
      split
      · show st.attemptsMade + 1 ≤ st2.attemptsMade
        omega
      · refine Nat.le_trans ?_ (marGo_attempts_mono retries rd jit oc m (a + 1) _)
        show st.attemptsMade + 1 ≤ st2.attemptsMade
        omega

lemma some_beq_nat (a b : Nat) : ((some a == some b) : Bool) = (a == b) := rfl

/-- C5 (amended): `isRetryableError` classifies exactly the statuses and
messages the spec lists as retryable, but `makeApiRequest`'s catch block
decides retries by status code alone: with a parsed, non-auth-phrased error
body, a non-2xx first attempt is retried exactly when the status is 429 or
outside 400-499 — so 401, 403 and every other 4xx abort after one attempt
even when the message contains a retryable phrase (see the counterexample,
where a 404 with a "timeout" message is classified retryable yet never
retried). -/
theorem retry_decision_characterization {T : Type} (retries rd : Nat)
    (jit : Nat → Nat) (oc : Nat → AttemptOutcome T) (s : Nat) (txt : String)
    (entries : List (String × String)) (hdr : Option RateLimitInfo)
    (t0 : Nat) (rl0 : Option RateLimitInfo)
    (hr : 1 ≤ retries)
    (hoc : oc 0 = AttemptOutcome.httpError s txt (some entries) hdr)
    (ha1 : containsSubstr (httpErrMsg s txt (some entries)) "authentication" = false)
    (ha2 : containsSubstr (httpErrMsg s txt (some entries)) "unauthorized" = false) :
    (∀ s2 m2, isRetryableError s2 m2 = retryableSpecClass s2 m2) ∧
    (2 ≤ (makeApiRequest retries rd jit oc t0 rl0).final.attemptsMade ↔
      (s = 429 ∨ ¬(400 ≤ s ∧ s < 500))) := by
  refine ⟨isRetryable_eq_spec, ?_⟩
  cases retries with
  | zero => exact absurd hr (by omega)
  | succ r' =>
    have hra := runAttempt_http oc 0 (initState t0 rl0) s txt entries hdr hoc
    by_cases hcase : s = 429 ∨ ¬(400 ≤ s ∧ s < 500)
    · have hauth : authAbortCheck (httpErrMsg s txt (some entries)) (some s) = false := by
        unfold authAbortCheck
        rw [ha1, ha2]
        simp only [Bool.false_or, some_beq_nat, Bool.or_eq_false_iff,
          beq_eq_false_iff_ne]
        rcases hcase with h | h
        · constructor <;> omega
        · constructor <;> omega
      have hcl : clientAbortCheck (some s) = false := by
        unfold clientAbortCheck
        by_cases h429 : s = 429
        · subst h429; decide
        · have hrange : ¬(400 ≤ s ∧ s < 500) := by
            rcases hcase with h | h
            · exact absurd h h429
            · exact h
          by_cases hge : 400 ≤ s
          · have hlt : ¬ s < 500 := fun hlt => hrange ⟨hge, hlt⟩
            simp [hlt]
          · simp [hge]
      rw [hauth, hcl] at hra
      simp at hra
      constructor
      · intro _; exact hcase
      · intro _
        unfold makeApiRequest marGo
        rw [hra]
        dsimp only
        rw [if_neg (Nat.succ_ne_zero r')]
        refine Nat.le_trans ?_
          (marGo_attempts_ge (r' + 1) rd jit oc (r' + 1) 1 _ (by omega))
        exact Nat.le_refl 2
    · have hparts : s ≠ 429 ∧ (400 ≤ s ∧ s < 500) := by
        constructor
        · intro h; exact hcase (Or.inl h)
        · by_contra h; exact hcase (Or.inr h)
      have hcl : clientAbortCheck (some s) = true := by
        unfold clientAbortCheck
        simp [hparts.1, hparts.2.1, hparts.2.2]
      have hab : (authAbortCheck (httpErrMsg s txt (some entries)) (some s) ||
          clientAbortCheck (some s)) = true := by
        rw [hcl]
        simp
      rw [hab] at hra
      simp at hra
      constructor
      · intro h2le
        exfalso
        unfold makeApiRequest marGo at h2le
        rw [hra] at h2le
        dsimp only at h2le
        simp [httpSt, initState] at h2le
      · intro hRHS
        exact absurd hRHS hcase

def c5Oc : Nat → AttemptOutcome Unit :=
  fun _ => AttemptOutcome.httpError 404 "Not Found"
    (some [("Error", "request timeout")]) none

/-- C5 counterexample: a 404 response whose error body message contains
`timeout` is classified retryable by `isRetryableError`, yet
`makeApiRequest` aborts after a single attempt — the code does not retry
exactly the errors the classification marks retryable. -/
theorem retryable_classification_mismatch :
    isRetryableError 404
      (httpErrMsg 404 "Not Found" (some [("Error", "request timeout")])) = true ∧
    (makeApiRequest 2 1000 (fun _ => 0) c5Oc 0 none).final.attemptsMade = 1 := by
  constructor
  · decide
  · decide

def c5WOc : Nat → AttemptOutcome Unit :=
  fun _ => AttemptOutcome.httpError 503 "SU" (some [("Error", "fail")]) none

theorem retry_decision_characterization_witness :
    isRetryableError 429 "x" = retryableSpecClass 429 "x" ∧
    (2 ≤ (makeApiRequest 2 1000 (fun _ => 0) c5WOc 0 none).final.attemptsMade ↔
      ((503 : Nat) = 429 ∨ ¬(400 ≤ (503 : Nat) ∧ (503 : Nat) < 500))) := by
  have h := retry_decision_characterization 2 1000 (fun _ => 0) c5WOc 503 "SU"
    [("Error", "fail")] none 0 none (by omega) rfl (by decide) (by decide)
  exact ⟨h.1 429 "x", h.2⟩

end TFPM
